import Mathlib

/-!
Verification development for the onkey repository: identity-gated key-share
lifecycle and threshold-signing coordinator.

The definitions below are shallow embeddings of the TypeScript source:

* packages/backend/src/utils/encryption.ts  (encrypt / decrypt)
* packages/mpc encryption module            (encryptShare / decryptShare)
* packages/backend/src/services/keystore    (storePKPInfo / getPKPInfo)
* packages/backend/src/services/session     (createSessionToken / verifySessionToken / createDBSession)
* packages/backend/src/utils/auth.ts        (authenticate)
* packages/backend/src/routes/auth.ts       (/auth/login rate limit, /auth/verify)
* packages/backend/src/routes/mpc.ts        (/mpc/sign)
* packages/mpc lit module                   (generateMPCKeyShares / signWithMPC)

Bytes are modelled as natural numbers below 256, hex strings as lists of hex
digit values (0..15) with the value 16 standing for the colon separator
character used by encryptShare.  The AES-256-GCM core provided by the external
node crypto library is modelled as an arbitrary counter-mode keystream plus an
arbitrary authentication-tag function; every theorem about the encryption
framing is proved for all such cores, so it holds in particular for AES-GCM.
-/

namespace Onkey

/-- Hex encoding of a byte list, two hex digit values per byte
(Buffer.toString with hex in the source). -/
def hexEnc : List Nat → List Nat
  | [] => []
  | b :: bs => b / 16 :: b % 16 :: hexEnc bs

/-- Hex decoding: consume hex digit values two at a time
(Buffer.from with hex in the source); a trailing odd digit is dropped. -/
def hexDec : List Nat → List Nat
  | h :: l :: rest => (h * 16 + l) :: hexDec rest
  | _ => []

/-- Counter-mode keystream: maps (key bytes, iv bytes, position) to a
keystream byte.  AES-256-CTR as used inside GCM is one instance. -/
abbrev KeyStream := List Nat → List Nat → Nat → Nat

/-- Authentication-tag function: maps (key bytes, iv bytes, ciphertext bytes)
to the 16-byte GCM tag.  GHASH-based GCM tagging is one instance. -/
abbrev TagFn := List Nat → List Nat → List Nat → List Nat

/-- XOR of a byte list against the keystream starting at a given counter
position: the stream-cipher layer of AES-GCM. -/
def ctrXor (ks : KeyStream) (key iv : List Nat) : Nat → List Nat → List Nat
  | _, [] => []
  | i, b :: rest => (b ^^^ ks key iv i) :: ctrXor ks key iv (i + 1) rest

/-- Result of utils/encryption.ts encrypt: hex ciphertext with the auth tag
appended, and the hex IV returned separately. -/
structure EncryptResult where
  encrypted : List Nat
  iv : List Nat
deriving Repr, DecidableEq

/-- Embedding of encrypt from packages/backend/src/utils/encryption.ts:
check the key decodes to 32 bytes, stream-encrypt, append the 16-byte tag
as 32 hex chars, return the IV separately. -/
def encrypt (ks : KeyStream) (tagF : TagFn) (text key ivBytes : List Nat) :
    Except String EncryptResult :=
  let keyBuffer := hexDec key
  if keyBuffer.length ≠ 32 then
    .error "Encryption key must be 32 bytes (64 hex characters)"
  else
    let ct := ctrXor ks keyBuffer ivBytes 0 text
    let tag := tagF keyBuffer ivBytes ct
    .ok { encrypted := hexEnc ct ++ hexEnc tag, iv := hexEnc ivBytes }

/-- Embedding of decrypt from packages/backend/src/utils/encryption.ts:
split off the last 32 hex chars as the tag (slice bounds as in the source,
with the same clamping behaviour for short inputs), verify it, decrypt. -/
def decrypt (ks : KeyStream) (tagF : TagFn) (encryptedData iv key : List Nat) :
    Except String (List Nat) :=
  let keyBuffer := hexDec key
  if keyBuffer.length ≠ 32 then
    .error "Encryption key must be 32 bytes (64 hex characters)"
  else
    let ivBuffer := hexDec iv
    let encryptedHex := encryptedData.take (encryptedData.length - 32)
    let authTagHex := encryptedData.drop (encryptedData.length - 32)
    let authTag := hexDec authTagHex
    let ct := hexDec encryptedHex
    if tagF keyBuffer ivBuffer ct = authTag then
      .ok (ctrXor ks keyBuffer ivBuffer 0 ct)
    else
      .error "DecryptionFailed"

/-- The colon separator character of the encryptShare storage format,
encoded as the out-of-range digit value 16. -/
def colonChar : Nat := 16

/-- Embedding of encryptShare from the mpc package encryption module:
same cipher as encrypt but the hex IV is prepended with a colon. -/
def encryptShare (ks : KeyStream) (tagF : TagFn) (text key ivBytes : List Nat) :
    Except String (List Nat) :=
  let keyBuffer := hexDec key
  if keyBuffer.length ≠ 32 then
    .error "Encryption key must be 32 bytes (64 hex characters)"
  else
    let ct := ctrXor ks keyBuffer ivBytes 0 text
    let tag := tagF keyBuffer ivBytes ct
    let combined := hexEnc ct ++ hexEnc tag
    .ok (hexEnc ivBytes ++ colonChar :: combined)

/-- JavaScript String.split on the colon character. -/
def splitColon : List Nat → List (List Nat)
  | [] => [[]]
  | c :: rest =>
    if c = colonChar then
      [] :: splitColon rest
    else
      match splitColon rest with
      | [] => [[c]]
      | h :: t => (c :: h) :: t

/-- Embedding of decryptShare from the mpc package encryption module:
split the stored string on the colon, reject a missing IV or body exactly as
the destructuring-plus-falsiness check in the source does, then decrypt as
in decrypt. -/
def decryptShare (ks : KeyStream) (tagF : TagFn) (encryptedData key : List Nat) :
    Except String (List Nat) :=
  let keyBuffer := hexDec key
  if keyBuffer.length ≠ 32 then
    .error "Encryption key must be 32 bytes (64 hex characters)"
  else
    let parts := splitColon encryptedData
    let ivHex := parts.getD 0 []
    let combined := parts.getD 1 []
    if ivHex = [] ∨ combined = [] then
      .error "Invalid encrypted data format"
    else
      let iv := hexDec ivHex
      let encryptedHex := combined.take (combined.length - 32)
      let authTagHex := combined.drop (combined.length - 32)
      let authTag := hexDec authTagHex
      let ct := hexDec encryptedHex
      if tagF keyBuffer iv ct = authTag then
        .ok (ctrXor ks keyBuffer iv 0 ct)
      else
        .error "DecryptionFailed"

/-- Fixture keystream for witnesses: constant byte 7. -/
def wKs : KeyStream := fun _ _ _ => 7

/-- Fixture tag function for witnesses: sixteen bytes of 3. -/
def wTagF : TagFn := fun _ _ _ => List.replicate 16 3

/-- Fixture plaintext bytes for witnesses. -/
def wText : List Nat := [0, 255, 16]

/-- Fixture key of 64 hex digit values for witnesses. -/
def wKey : List Nat := List.replicate 64 2

/-- Fixture 16-byte IV for witnesses. -/
def wIv : List Nat := List.replicate 16 1

/-- JavaScript truthiness of an optional string column: null/undefined and
the empty string are falsy. -/
def jsTruthy : Option String → Bool
  | none => false
  | some s => s != ""

/-- Row of the prisma User table, with the PKP columns read and written by
the keystore service and the auth route. -/
structure UserRow where
  id : String
  email : String
  emailVerified : Bool
  smartAccountAddress : Option String
  pkpId : Option String
  pkpPublicKey : Option String
  pkpEthAddress : Option String
  encryptedServerShare : Option String
deriving Repr, DecidableEq

/-- Argument record of storePKPInfo / result record of getPKPInfo. -/
structure PKPData where
  pkpId : String
  pkpPublicKey : String
  pkpEthAddress : String
  encryptedServerShare : String
deriving Repr, DecidableEq

/-- Embedding of storePKPInfo from the backend keystore service: the prisma
update writes only the pkpId, pkpPublicKey and pkpEthAddress columns; the
encryptedServerShare member of the argument is not written by the update. -/
def storePKPInfo (u : UserRow) (pkpData : PKPData) : UserRow :=
  { u with pkpId := some pkpData.pkpId,
           pkpPublicKey := some pkpData.pkpPublicKey,
           pkpEthAddress := some pkpData.pkpEthAddress }

/-- Embedding of getPKPInfo from the backend keystore service: null when the
user is missing or any of the three PKP columns is falsy, otherwise the
record with the encryptedServerShare column defaulted to the empty string. -/
def getPKPInfo (u : Option UserRow) : Option PKPData :=
  match u with
  | none => none
  | some user =>
    if !(jsTruthy user.pkpId) || !(jsTruthy user.pkpPublicKey) ||
        !(jsTruthy user.pkpEthAddress) then
      none
    else
      some { pkpId := user.pkpId.getD "",
             pkpPublicKey := user.pkpPublicKey.getD "",
             pkpEthAddress := user.pkpEthAddress.getD "",
             encryptedServerShare := user.encryptedServerShare.getD "" }

/-- Session JWT as validated by the jose library, modelled at the library
boundary: well-formedness, signature validity against the server secret,
expiry instant, and the two payload claims the backend sets. -/
structure Token where
  wellFormed : Bool
  sigOk : Bool
  expiresAt : Nat
  userId : String
  email : String
deriving Repr, DecidableEq

/-- Payload attached to the request by the authentication middleware. -/
structure SessionPayload where
  userId : String
  email : String
deriving Repr, DecidableEq

/-- Session lifetime from the session service: one hour in seconds. -/
def JWT_EXPIRY : Nat := 60 * 60

/-- Embedding of createSessionToken from the session service: an HS256 JWT
over the userId and email payload, expiring JWT_EXPIRY after issuance. -/
def createSessionToken (userId email : String) (now : Nat) : Token :=
  { wellFormed := true, sigOk := true, expiresAt := now + JWT_EXPIRY,
    userId := userId, email := email }

/-- Embedding of verifySessionToken from the session service: jwtVerify
succeeds exactly when the token parses, its signature verifies against the
server secret, and it is not expired; this is the documented behaviour of
the external jose library at its boundary. -/
def verifySessionToken (t : Token) (now : Nat) : Option SessionPayload :=
  if t.wellFormed && t.sigOk && decide (now < t.expiresAt) then
    some { userId := t.userId, email := t.email }
  else
    none

/-- Authorization header of a request: whether it carries the Bearer scheme,
and the token that follows it. -/
structure AuthHeader where
  hasBearerScheme : Bool
  token : Token
deriving Repr, DecidableEq

/-- Embedding of the authenticate middleware from utils/auth.ts: reject a
missing header or one without the Bearer scheme, then verify the JWT; any
verification failure is a 401.  No other data source is consulted. -/
def authenticate (h : Option AuthHeader) (now : Nat) : Option SessionPayload :=
  match h with
  | none => none
  | some hdr =>
    if !hdr.hasBearerScheme then none
    else verifySessionToken hdr.token now

/-- Row of the prisma Session table. -/
structure SessionRow where
  userId : String
  token : Token
  expiresAt : Nat
deriving Repr, DecidableEq

/-- Backend database: the User and Session tables. -/
structure DB where
  users : List UserRow
  sessions : List SessionRow
deriving Repr, DecidableEq

/-- Embedding of createDBSession from the session service: insert a session
row expiring JWT_EXPIRY after now. -/
def createDBSession (db : DB) (userId : String) (t : Token) (now : Nat) : DB :=
  { db with sessions :=
      db.sessions ++ [{ userId := userId, token := t, expiresAt := now + JWT_EXPIRY }] }

/-- Prisma findUnique on the User table by email. -/
def findUserByEmail (db : DB) (email : String) : Option UserRow :=
  db.users.find? (fun u => u.email == email)

/-- Prisma findUnique on the User table by id. -/
def findUserById (db : DB) (id : String) : Option UserRow :=
  db.users.find? (fun u => u.id == id)

/-- Prisma update on the User table by id. -/
def updateUserRow (db : DB) (id : String) (f : UserRow → UserRow) : DB :=
  { db with users := db.users.map (fun u => if u.id == id then f u else u) }

/-- Modelled from the spec: the external identity provider (Stytch) holds a
one-time email challenge correlated by method id; a challenge is single-use,
expires after a short window, and is marked consumed by a successful
verification (spec sections 3, 4.1 and 6: IdentityAssertion consumed flag,
completeVerification marks the challenge consumed, replay prevention). -/
structure StytchOTP where
  methodId : String
  code : String
  email : String
  consumed : Bool
  expiresAt : Nat
deriving Repr, DecidableEq

/-- State of the external identity provider. -/
structure StytchState where
  otps : List StytchOTP
deriving Repr, DecidableEq

/-- Modelled from the spec: the provider's otps/authenticate endpoint, called
by getStytchAuthToken.  It succeeds exactly when a challenge with this method
id exists, the code matches, the challenge is not consumed and not expired;
on success it returns a session JWT and marks the challenge consumed. -/
def stytchAuthenticate (st : StytchState) (methodId code : String) (now : Nat) :
    Option (String × StytchState) :=
  match st.otps.find? (fun o => o.methodId == methodId) with
  | none => none
  | some o =>
    if o.code == code && !o.consumed && decide (now < o.expiresAt) then
      some ("stytch-jwt-" ++ methodId,
        { otps := st.otps.map (fun p =>
            if p.methodId == methodId then { p with consumed := true } else p) })
    else
      none

/-- Remote threshold signer (Lit) mint result: the claimed PKP id and its
public key, as extracted from the claim response. -/
structure LitMint where
  pkpId : String
  pkpPublicKey : String
deriving Repr, DecidableEq

/-- Plaintext of the user share built by generateMPCKeyShares (the JSON
stringified in stage 4 of the mpc lit module; the auth method member is not
needed by any claim and is omitted). -/
structure UserSharePayload where
  type : String
  pkpId : String
deriving Repr, DecidableEq

/-- Plaintext of the server share built by generateMPCKeyShares (the JSON
stringified in stage 4 of the mpc lit module). -/
structure ServerSharePayload where
  type : String
  pkpId : String
  pkpPublicKey : String
  pkpEthAddress : String
deriving Repr, DecidableEq

/-- User share plaintext as built in stage 4 of generateMPCKeyShares. -/
def buildUserSharePayload (pkpId : String) : UserSharePayload :=
  { type := "lit-pkp-auth", pkpId := pkpId }

/-- Server share plaintext as built in stage 4 of generateMPCKeyShares: its
pkpEthAddress member is assigned the PKP public key. -/
def buildServerSharePayload (pkpId pkpPublicKey : String) : ServerSharePayload :=
  { type := "lit-pkp-server", pkpId := pkpId, pkpPublicKey := pkpPublicKey,
    pkpEthAddress := pkpPublicKey }

/-- Environment of the issuance flow: JSON serialization and share encryption
(the mpc encryption module applied to the configured keys), kept abstract
because the flow treats the produced share strings as opaque. -/
structure Env where
  serializeUserShare : UserSharePayload → String
  serializeServerShare : ServerSharePayload → String
  encryptWithUserKey : String → String
  encryptWithServerKey : String → String

/-- Result record of generateMPCKeyShares. -/
structure GenShares where
  userShare : String
  serverShare : String
  publicKey : String
  pkpId : String
  pkpEthAddress : String
deriving Repr, DecidableEq

/-- Embedding of generateMPCKeyShares from the mpc lit module, after a mint
(or fetch of an existing PKP) produced a PKP id and public key: build the two
share plaintexts, encrypt them under the configured keys, and return the
public key also as the pkpEthAddress member. -/
def generateMPCKeyShares (env : Env) (mint : LitMint) : GenShares :=
  { userShare := env.encryptWithUserKey
      (env.serializeUserShare (buildUserSharePayload mint.pkpId)),
    serverShare := env.encryptWithServerKey
      (env.serializeServerShare (buildServerSharePayload mint.pkpId mint.pkpPublicKey)),
    publicKey := mint.pkpPublicKey,
    pkpId := mint.pkpId,
    pkpEthAddress := mint.pkpPublicKey }

/-- Body of POST /auth/verify. -/
structure VerifyReq where
  email : String
  code : String
  methodId : String
deriving Repr, DecidableEq

/-- Response of POST /auth/verify. -/
inductive VerifyResponse
  | invalidOtp
  | walletFailure
  | okResp (token : Token) (smartAccountAddress : String) (isNewUser : Bool)
      (userShare : Option String)
deriving Repr, DecidableEq

/-- The smartAccountAddress member of a successful verify response. -/
def VerifyResponse.address : VerifyResponse → Option String
  | .okResp _ a _ _ => some a
  | _ => none

/-- The isNewUser member of a successful verify response. -/
def VerifyResponse.isNew : VerifyResponse → Option Bool
  | .okResp _ _ b _ => some b
  | _ => none

/-- The userShare member of a successful verify response. -/
def VerifyResponse.share : VerifyResponse → Option String
  | .okResp _ _ _ s => s
  | _ => none

/-- Outcome of one POST /auth/verify call: the response, the resulting
provider and database states, and whether the remote signer mint path
(generateMPCKeyShares) was invoked. -/
structure VerifyOutcome where
  response : VerifyResponse
  stytch : StytchState
  db : DB
  mintCalled : Bool
deriving Repr, DecidableEq

/-- Embedding of the POST /auth/verify handler from routes/auth.ts.  The
remote mint outcome is an input: some mint if the Lit claim flow would
return a PKP, none if it would throw.  Steps follow the source: Stytch OTP
authentication (400 on failure), get-or-create user with email verification,
isNewUser test on the smartAccountAddress column, for new users mint,
storePKPInfo, set smartAccountAddress to the public key (500 if the mint
path throws), then session token creation and session row insertion. -/
def verifyHandler (env : Env) (st : StytchState) (db : DB) (mint : Option LitMint)
    (req : VerifyReq) (now : Nat) : VerifyOutcome :=
  match stytchAuthenticate st req.methodId req.code now with
  | none => { response := .invalidOtp, stytch := st, db := db, mintCalled := false }
  | some (_, st') =>
    let dbUser :=
      match findUserByEmail db req.email with
      | none =>
        let u : UserRow :=
          { id := "user-" ++ req.email, email := req.email, emailVerified := true,
            smartAccountAddress := none, pkpId := none, pkpPublicKey := none,
            pkpEthAddress := none, encryptedServerShare := none }
        ({ db with users := db.users ++ [u] }, u)
      | some u =>
        if !u.emailVerified then
          (updateUserRow db u.id (fun v => { v with emailVerified := true }),
            { u with emailVerified := true })
        else
          (db, u)
    let db1 := dbUser.1
    let user := dbUser.2
    let isNewUser := !(jsTruthy user.smartAccountAddress)
    if isNewUser then
      match mint with
      | none =>
        { response := .walletFailure, stytch := st', db := db1, mintCalled := true }
      | some m =>
        let shares := generateMPCKeyShares env m
        let db2 := updateUserRow db1 user.id (fun v => storePKPInfo v
          { pkpId := shares.pkpId, pkpPublicKey := shares.publicKey,
            pkpEthAddress := shares.pkpEthAddress,
            encryptedServerShare := shares.serverShare })
        let smartAccountAddress := shares.publicKey
        let db3 := updateUserRow db2 user.id
          (fun v => { v with smartAccountAddress := some smartAccountAddress })
        let token := createSessionToken user.id user.email now
        let db4 := createDBSession db3 user.id token now
        { response := .okResp token smartAccountAddress true
            (if shares.userShare != "" then some shares.userShare else none),
          stytch := st', db := db4, mintCalled := true }
    else
      let token := createSessionToken user.id user.email now
      let db2 := createDBSession db1 user.id token now
      { response := .okResp token (user.smartAccountAddress.getD "") false none,
        stytch := st', db := db2, mintCalled := false }

/-- Parsed JSON object of a decrypted share, with every member optional as
in JavaScript. -/
structure JsonShare where
  type : Option String
  pkpId : Option String
  pkpPublicKey : Option String
  pkpEthAddress : Option String
deriving Repr, DecidableEq

/-- JavaScript logical-or on optional strings (a || b). -/
def jsOr (a b : Option String) : Option String :=
  if jsTruthy a then a else b

/-- Contiguous-occurrence check of a pattern inside a character list. -/
def charsIncludes (pat : List Char) : List Char → Bool
  | [] => pat.isPrefixOf []
  | c :: rest => pat.isPrefixOf (c :: rest) || charsIncludes pat rest

/-- JavaScript String.includes. -/
def includesStr (s pat : String) : Bool := charsIncludes pat.data s.data

/-- JavaScript String.startsWith. -/
def strStartsWith (s pre : String) : Bool := pre.data.isPrefixOf s.data

/-- JavaScript optional-chained includes of the substring mock
(s.type with includes in the source). -/
def typeIncludesMock : Option String → Bool
  | none => false
  | some s => includesStr s "mock"

/-- Embedding of signWithMPC from the mpc lit module.  The AES decryption
results of the two stored share strings and the JSON parser are inputs
(none models a throw), mirroring stage order in the source: decrypt user
share, decrypt server share, parse user JSON, parse server JSON, validate
PKP ids and mock markers and public key, then call the remote pkpSign.
Returns the result together with whether pkpSign was invoked. -/
def signWithMPC (parse : String → Option JsonShare)
    (userDecrypt serverDecrypt : Option String) (pkpSignRes : Option String) :
    Except String String × Bool :=
  match userDecrypt with
  | none => (.error "USER_SHARE_DECRYPT_FAILED", false)
  | some du =>
    match serverDecrypt with
    | none => (.error "SERVER_SHARE_DECRYPT_FAILED", false)
    | some ds =>
      match parse du with
      | none => (.error "USER_SHARE_JSON_INVALID", false)
      | some up =>
        match parse ds with
        | none => (.error "SERVER_SHARE_JSON_INVALID", false)
        | some sp =>
          if !(jsTruthy up.pkpId) || !(jsTruthy sp.pkpId) then
            (.error "PKP_ID_MISSING_IN_SHARES", false)
          else if up.pkpId.getD "" != sp.pkpId.getD "" then
            (.error "PKP_ID_MISMATCH", false)
          else if typeIncludesMock up.type || typeIncludesMock sp.type then
            (.error "MOCK_PKP_REFUSED", false)
          else
            let pkpPublicKey := jsOr sp.pkpPublicKey sp.pkpEthAddress
            if !(jsTruthy pkpPublicKey) then
              (.error "PKP_PUBLIC_KEY_MISSING", false)
            else
              match pkpSignRes with
              | none => (.error "PKP_SIGN_FAILED", true)
              | some s =>
                if s != "" then (.ok s, true)
                else (.error "EMPTY_SIGNATURE_FROM_PKP_SIGN", true)

/-- Result of POST /mpc/sign: 401 from the authentication preHandler, a 500
tagged with the failing stage, or the signature. -/
inductive SignResult
  | unauthenticated
  | stageFailed (stage : String)
  | okSig (signature : String)
deriving Repr, DecidableEq

/-- Outcome of one POST /mpc/sign call and whether the remote threshold
signer (pkpSign) was invoked during it. -/
structure SignOutcome where
  result : SignResult
  pkpSignCalled : Bool
deriving Repr, DecidableEq

/-- Embedding of the POST /mpc/sign handler from routes/mpc.ts: the
authenticate preHandler (401 before the handler body runs), stage 1 PKP
lookup by the session userId, stage 2 mock PKP rejection, stage 3 presence
of the encrypted server share, stage 4 signWithMPC, whose internal failures
surface as the mpc_signing stage.  The route performs no database write and
holds no per-identity counter.  The share decryption results, JSON parser
and pkpSign result are inputs as in signWithMPC. -/
def mpcSignHandler (parse : String → Option JsonShare) (db : DB)
    (h : Option AuthHeader) (now : Nat)
    (userDecrypt serverDecrypt : Option String) (pkpSignRes : Option String) :
    SignOutcome :=
  match authenticate h now with
  | none => { result := .unauthenticated, pkpSignCalled := false }
  | some payload =>
    match getPKPInfo (findUserById db payload.userId) with
    | none => { result := .stageFailed "pkp_lookup", pkpSignCalled := false }
    | some pkpInfo =>
      if strStartsWith pkpInfo.pkpId "mock-" then
        { result := .stageFailed "pkp_validation", pkpSignCalled := false }
      else if !(jsTruthy (some pkpInfo.encryptedServerShare)) then
        { result := .stageFailed "server_share", pkpSignCalled := false }
      else
        match signWithMPC parse userDecrypt serverDecrypt pkpSignRes with
        | (.error _, called) => { result := .stageFailed "mpc_signing", pkpSignCalled := called }
        | (.ok sig, called) => { result := .okSig sig, pkpSignCalled := called }

/-- Registered limit of the /auth/login rate limiter: 3 requests. -/
def OTP_RATE_MAX : Nat := 3

/-- Registered window of the /auth/login rate limiter: one hour, in seconds. -/
def OTP_RATE_WINDOW : Nat := 3600

/-- Rate-limit key generator from routes/auth.ts. -/
def rateLimitKey (email : String) : String := "otp:" ++ email

/-- Number of recorded hits for a key still inside the window at the given
instant.  The external rate-limit plugin counts every request against the
key; entries older than the window no longer count. -/
def liveHits (hits : List (String × Nat)) (key : String) (now : Nat) : Nat :=
  (hits.filter (fun p => p.1 == key && decide (now < p.2 + OTP_RATE_WINDOW))).length

/-- Outcome of one POST /auth/login request: whether it passed the rate
limiter (429 otherwise), whether the external identity provider was asked to
send an OTP, and the recorded hits afterwards. -/
structure LoginOutcome where
  accepted : Bool
  providerCalled : Bool
  hits : List (String × Nat)
deriving Repr, DecidableEq

/-- Embedding of one POST /auth/login request: the registered rate limiter
(max OTP_RATE_MAX per OTP_RATE_WINDOW per email key) runs before the
handler; only an accepted request reaches the handler, which calls the
external provider (createStytchEmailOTP).  Every request is recorded
against its key. -/
def processLogin (hits : List (String × Nat)) (email : String) (now : Nat) :
    LoginOutcome :=
  let key := rateLimitKey email
  let hits' := hits ++ [(key, now)]
  if liveHits hits key now < OTP_RATE_MAX then
    { accepted := true, providerCalled := true, hits := hits' }
  else
    { accepted := false, providerCalled := false, hits := hits' }

/-- Times at which requests for the given email were accepted by the rate
limiter, over a request sequence processed from the given hit record. -/
def acceptedTimes : List (String × Nat) → List (String × Nat) → String → List Nat
  | [], _, _ => []
  | (e, t) :: rest, hits, email =>
    let out := processLogin hits e t
    let tail := acceptedTimes rest out.hits email
    if e == email && out.accepted then t :: tail else tail

/-- Window count of recorded hits for a key inside the hour window starting
at T. -/
def windowCount (hits : List (String × Nat)) (key : String) (T : Nat) : Nat :=
  (hits.filter (fun p => p.1 == key && decide (T ≤ p.2) &&
    decide (p.2 < T + OTP_RATE_WINDOW))).length

/-- Consecutive identical POST /mpc/sign requests.  The route performs no
database write and keeps no per-request counter, so each request is handled
against the same state. -/
def runConsecutiveSigns (parse : String → Option JsonShare) (db : DB)
    (h : Option AuthHeader) (now : Nat) (uD sD pk : Option String) :
    Nat → List SignOutcome
  | 0 => []
  | n + 1 => mpcSignHandler parse db h now uD sD pk ::
      runConsecutiveSigns parse db h now uD sD pk n

/-- Formalization of the session cross-check asserted by claim C3: every
validate call rejects a token whose session row is absent from the store. -/
def validateCrossChecksStore : Prop :=
  ∀ (hdr : AuthHeader) (now : Nat) (store : List SessionRow),
    (∀ s ∈ store, s.token ≠ hdr.token) →
    authenticate (some hdr) now = none

/-- Fixture environment for concrete runs: injective serializers and envelope
markers standing for the configured encryption keys. -/
def fixEnv : Env :=
  { serializeUserShare := fun p => p.type ++ "|" ++ p.pkpId,
    serializeServerShare := fun p =>
      p.type ++ "|" ++ p.pkpId ++ "|" ++ p.pkpPublicKey ++ "|" ++ p.pkpEthAddress,
    encryptWithUserKey := fun s => "encU|" ++ s,
    encryptWithServerKey := fun s => "encS|" ++ s }

/-- Fixture provider state holding one fresh OTP challenge. -/
def st0 : StytchState :=
  { otps := [{ methodId := "m1", code := "123456", email := "a@example.com",
               consumed := false, expiresAt := 100 }] }

/-- Fixture provider state after the challenge of st0 is consumed. -/
def stCons : StytchState :=
  { otps := [{ methodId := "m1", code := "123456", email := "a@example.com",
               consumed := true, expiresAt := 100 }] }

/-- Fixture empty database. -/
def db0 : DB := { users := [], sessions := [] }

/-- Fixture mint result of the remote signer. -/
def litM : LitMint := { pkpId := "pkp-1", pkpPublicKey := "0xPUB" }

/-- Fixture mint outcome of the remote signer. -/
def mint0 : Option LitMint := some litM

/-- Fixture verify request matching the challenge of st0. -/
def req0 : VerifyReq := { email := "a@example.com", code := "123456", methodId := "m1" }

/-- Fixture user row already provisioned with a key record and an encrypted
server share. -/
def u1 : UserRow :=
  { id := "u1", email := "a@example.com", emailVerified := true,
    smartAccountAddress := some "0xPUB", pkpId := some "pkp-1",
    pkpPublicKey := some "0xPUB", pkpEthAddress := some "0xPUB",
    encryptedServerShare := some "ct1" }

/-- Fixture database holding the provisioned user u1. -/
def dbProv : DB := { users := [u1], sessions := [] }

/-- Fixture header with a token that fails well-formedness. -/
def hdr0 : AuthHeader :=
  { hasBearerScheme := true,
    token := { wellFormed := false, sigOk := true, expiresAt := 50,
               userId := "u1", email := "a@example.com" } }

/-- Fixture header with a valid session token for u1. -/
def hdrU1 : AuthHeader :=
  { hasBearerScheme := true, token := createSessionToken "u1" "a@example.com" 0 }

/-- Fixture header with a valid session token for a user id that has no
row in the database. -/
def hdrNoUser : AuthHeader :=
  { hasBearerScheme := true, token := createSessionToken "nouser" "x@example.com" 0 }

/-- Fixture JSON parser mapping the two decrypted fixture share strings to
their payload objects. -/
def parse1 : String → Option JsonShare := fun s =>
  if s == "du" then
    some { type := some "lit-pkp-auth", pkpId := some "pkp-1",
           pkpPublicKey := none, pkpEthAddress := none }
  else if s == "ds" then
    some { type := some "lit-pkp-server", pkpId := some "pkp-1",
           pkpPublicKey := some "0xPUB", pkpEthAddress := some "0xPUB" }
  else
    none

/-- Formalization of claim C8: some bound exists beyond which consecutive
sign requests of the provisioned fixture identity stop being forwarded to
the remote signer. -/
def signRateLimitClaim : Prop :=
  ∃ bound : Nat, ∀ n : Nat,
    ∀ out ∈ (runConsecutiveSigns parse1 dbProv (some hdrU1) 0
        (some "du") (some "ds") (some "0xsig") n).drop bound,
      out.pkpSignCalled = false

/-- Fixture user row that is verified but not yet provisioned. -/
def u2 : UserRow :=
  { id := "u2", email := "b@example.com", emailVerified := true,
    smartAccountAddress := none, pkpId := none, pkpPublicKey := none,
    pkpEthAddress := none, encryptedServerShare := none }

/-- Fixture database holding only the unprovisioned user u2. -/
def dbNew : DB := { users := [u2], sessions := [] }

/-- Fixture provider state with a fresh challenge for the email of u2. -/
def stB : StytchState :=
  { otps := [{ methodId := "m2", code := "654321", email := "b@example.com",
               consumed := false, expiresAt := 100 }] }

/-- Fixture provider state after the challenge of stB is consumed. -/
def stBCons : StytchState :=
  { otps := [{ methodId := "m2", code := "654321", email := "b@example.com",
               consumed := true, expiresAt := 100 }] }

/-- Fixture verify request matching the challenge of stB. -/
def reqB : VerifyReq := { email := "b@example.com", code := "654321", methodId := "m2" }

/-- Fixture login request sequence: four same-email requests within one
hour. -/
def reqs4 : List (String × Nat) :=
  [("a@example.com", 0), ("a@example.com", 1), ("a@example.com", 2),
   ("a@example.com", 3)]

/-- Fixture hit record with three live hits for the fixture email. -/
def hits3 : List (String × Nat) :=
  [(rateLimitKey "a@example.com", 0), (rateLimitKey "a@example.com", 1),
   (rateLimitKey "a@example.com", 2)]

theorem hexEnc_length (bs : List Nat) : (hexEnc bs).length = 2 * bs.length := by
  induction bs with
  | nil => rfl
  | cons b bs ih => simp [hexEnc, ih]; omega

theorem hexDec_hexEnc (bs : List Nat) (h : ∀ b ∈ bs, b < 256) :
    hexDec (hexEnc bs) = bs := by
  induction bs with
  | nil => rfl
  | cons b bs ih =>
    have hb : b < 256 := h b (List.mem_cons_self b bs)
    have ih' := ih (fun x hx => h x (List.mem_cons_of_mem b hx))
    simp [hexEnc, hexDec, ih']
    omega

theorem hexEnc_digits_lt (bs : List Nat) (h : ∀ b ∈ bs, b < 256) :
    ∀ d ∈ hexEnc bs, d < 16 := by
  induction bs with
  | nil => intro d hd; simp [hexEnc] at hd
  | cons b bs ih =>
    intro d hd
    have hb : b < 256 := h b (List.mem_cons_self b bs)
    simp [hexEnc] at hd
    rcases hd with h1 | h1 | h1
    · subst h1; omega
    · subst h1; omega
    · exact ih (fun x hx => h x (List.mem_cons_of_mem b hx)) d h1

theorem xor_byte_lt {a k : Nat} (ha : a < 256) (hk : k < 256) : a ^^^ k < 256 := by
  have ha8 : a < 2 ^ 8 := by omega
  have hk8 : k < 2 ^ 8 := by omega
  have h : Nat.bitwise bne a k < 2 ^ 8 := Nat.bitwise_lt ha8 hk8
  have hx : a ^^^ k = Nat.bitwise bne a k := rfl
  omega

theorem ctrXor_ctrXor (ks : KeyStream) (key iv : List Nat) (i : Nat) (pt : List Nat) :
    ctrXor ks key iv i (ctrXor ks key iv i pt) = pt := by
  induction pt generalizing i with
  | nil => rfl
  | cons b rest ih =>
    simp [ctrXor, ih, Nat.xor_assoc]

theorem ctrXor_mem_lt (ks : KeyStream) (key iv : List Nat) (i : Nat) (pt : List Nat)
    (hpt : ∀ b ∈ pt, b < 256) (hks : ∀ k v n, ks k v n < 256) :
    ∀ b ∈ ctrXor ks key iv i pt, b < 256 := by
  induction pt generalizing i with
  | nil => intro b hb; simp [ctrXor] at hb
  | cons x rest ih =>
    intro b hb
    simp [ctrXor] at hb
    rcases hb with h1 | h1
    · subst h1
      exact xor_byte_lt (hpt x (List.mem_cons_self x rest)) (hks key iv i)
    · exact ih (i + 1) (fun y hy => hpt y (List.mem_cons_of_mem x hy)) b h1

theorem splitColon_no_colon (l : List Nat) (h : ∀ c ∈ l, c ≠ colonChar) :
    splitColon l = [l] := by
  induction l with
  | nil => rfl
  | cons c rest ih =>
    have hc : c ≠ colonChar := h c (List.mem_cons_self c rest)
    have ih' := ih (fun x hx => h x (List.mem_cons_of_mem c hx))
    simp [splitColon, hc, ih']

theorem splitColon_append (l1 l2 : List Nat) (h : ∀ c ∈ l1, c ≠ colonChar) :
    splitColon (l1 ++ colonChar :: l2) = l1 :: splitColon l2 := by
  induction l1 with
  | nil => simp [splitColon]
  | cons c rest ih =>
    have hc : c ≠ colonChar := h c (List.mem_cons_self c rest)
    have ih' := ih (fun x hx => h x (List.mem_cons_of_mem c hx))
    simp [splitColon, hc, ih']

theorem hexDec_length : ∀ l : List Nat, (hexDec l).length = l.length / 2
  | [] => rfl
  | [_] => by simp [hexDec]
  | _ :: _ :: rest => by
    simp [hexDec, hexDec_length rest]
    omega

theorem take_drop_tag (l1 l2 : List Nat) (h : l2.length = 32) :
    List.take (l1.length + l2.length - 32) (l1 ++ l2) = l1 ∧
    List.drop (l1.length + l2.length - 32) (l1 ++ l2) = l2 := by
  have hl : l1.length + l2.length - 32 = l1.length := by omega
  rw [hl]
  exact ⟨List.take_left l1 l2, List.drop_left l1 l2⟩

theorem encrypt_eq (ks : KeyStream) (tagF : TagFn) (text key ivBytes : List Nat)
    (hkb : (hexDec key).length = 32) :
    encrypt ks tagF text key ivBytes =
      .ok { encrypted :=
              hexEnc (ctrXor ks (hexDec key) ivBytes 0 text) ++
                hexEnc (tagF (hexDec key) ivBytes (ctrXor ks (hexDec key) ivBytes 0 text)),
            iv := hexEnc ivBytes } := by
  unfold encrypt
  simp [hkb]

theorem encryptShare_eq (ks : KeyStream) (tagF : TagFn) (text key ivBytes : List Nat)
    (hkb : (hexDec key).length = 32) :
    encryptShare ks tagF text key ivBytes =
      .ok (hexEnc ivBytes ++ colonChar ::
            (hexEnc (ctrXor ks (hexDec key) ivBytes 0 text) ++
              hexEnc (tagF (hexDec key) ivBytes (ctrXor ks (hexDec key) ivBytes 0 text)))) := by
  unfold encryptShare
  simp [hkb]

theorem decrypt_encrypt (ks : KeyStream) (tagF : TagFn) (text key ivBytes : List Nat)
    (hkey : key.length = 64)
    (htext : ∀ b ∈ text, b < 256)
    (hivb : ∀ b ∈ ivBytes, b < 256)
    (hks : ∀ k v n, ks k v n < 256)
    (htagLen : ∀ k v c, (tagF k v c).length = 16)
    (htagB : ∀ k v c, ∀ b ∈ tagF k v c, b < 256) :
    (encrypt ks tagF text key ivBytes).bind
      (fun r => decrypt ks tagF r.encrypted r.iv key) = .ok text := by
  have hkb : (hexDec key).length = 32 := by rw [hexDec_length, hkey]
  rw [encrypt_eq ks tagF text key ivBytes hkb]
  have hct_lt : ∀ b ∈ ctrXor ks (hexDec key) ivBytes 0 text, b < 256 :=
    ctrXor_mem_lt ks (hexDec key) ivBytes 0 text htext hks
  have htag_len :
      (hexEnc (tagF (hexDec key) ivBytes (ctrXor ks (hexDec key) ivBytes 0 text))).length = 32 := by
    rw [hexEnc_length, htagLen]
  have hlen :
      (hexEnc (ctrXor ks (hexDec key) ivBytes 0 text) ++
        hexEnc (tagF (hexDec key) ivBytes (ctrXor ks (hexDec key) ivBytes 0 text))).length - 32 =
        (hexEnc (ctrXor ks (hexDec key) ivBytes 0 text)).length := by
    simp [List.length_append, htag_len]
  have h1 : hexDec (hexEnc ivBytes) = ivBytes := hexDec_hexEnc _ hivb
  have h2 : hexDec (hexEnc (ctrXor ks (hexDec key) ivBytes 0 text)) =
      ctrXor ks (hexDec key) ivBytes 0 text := hexDec_hexEnc _ hct_lt
  have h3 : hexDec (hexEnc (tagF (hexDec key) ivBytes (ctrXor ks (hexDec key) ivBytes 0 text))) =
      tagF (hexDec key) ivBytes (ctrXor ks (hexDec key) ivBytes 0 text) :=
    hexDec_hexEnc _ (htagB _ _ _)
  have htake := (take_drop_tag (hexEnc (ctrXor ks (hexDec key) ivBytes 0 text))
    (hexEnc (tagF (hexDec key) ivBytes (ctrXor ks (hexDec key) ivBytes 0 text))) htag_len).1
  have hdrop := (take_drop_tag (hexEnc (ctrXor ks (hexDec key) ivBytes 0 text))
    (hexEnc (tagF (hexDec key) ivBytes (ctrXor ks (hexDec key) ivBytes 0 text))) htag_len).2
  simp only [Except.bind]
  unfold decrypt
  simp [hkb, hlen, htake, hdrop, h1, h2, h3, ctrXor_ctrXor]

theorem decryptShare_encryptShare (ks : KeyStream) (tagF : TagFn) (text key ivBytes : List Nat)
    (hkey : key.length = 64)
    (htext : ∀ b ∈ text, b < 256)
    (hivlen : ivBytes.length = 16)
    (hivb : ∀ b ∈ ivBytes, b < 256)
    (hks : ∀ k v n, ks k v n < 256)
    (htagLen : ∀ k v c, (tagF k v c).length = 16)
    (htagB : ∀ k v c, ∀ b ∈ tagF k v c, b < 256) :
    (encryptShare ks tagF text key ivBytes).bind
      (fun s => decryptShare ks tagF s key) = .ok text := by
  have hkb : (hexDec key).length = 32 := by rw [hexDec_length, hkey]
  rw [encryptShare_eq ks tagF text key ivBytes hkb]
  have hct_lt : ∀ b ∈ ctrXor ks (hexDec key) ivBytes 0 text, b < 256 :=
    ctrXor_mem_lt ks (hexDec key) ivBytes 0 text htext hks
  have hiv_nocolon : ∀ c ∈ hexEnc ivBytes, c ≠ colonChar := by
    intro c hc
    have := hexEnc_digits_lt ivBytes hivb c hc
    unfold colonChar
    omega
  have hcomb_nocolon :
      ∀ c ∈ hexEnc (ctrXor ks (hexDec key) ivBytes 0 text) ++
          hexEnc (tagF (hexDec key) ivBytes (ctrXor ks (hexDec key) ivBytes 0 text)),
        c ≠ colonChar := by
    intro c hc
    unfold colonChar
    rcases List.mem_append.mp hc with h | h
    · have := hexEnc_digits_lt _ hct_lt c h
      omega
    · have := hexEnc_digits_lt _ (htagB _ _ _) c h
      omega
  have hsplit :
      splitColon (hexEnc ivBytes ++ colonChar ::
          (hexEnc (ctrXor ks (hexDec key) ivBytes 0 text) ++
            hexEnc (tagF (hexDec key) ivBytes (ctrXor ks (hexDec key) ivBytes 0 text)))) =
        [hexEnc ivBytes,
          hexEnc (ctrXor ks (hexDec key) ivBytes 0 text) ++
            hexEnc (tagF (hexDec key) ivBytes (ctrXor ks (hexDec key) ivBytes 0 text))] := by
    rw [splitColon_append _ _ hiv_nocolon, splitColon_no_colon _ hcomb_nocolon]
  have hiv_ne : hexEnc ivBytes ≠ [] := by
    intro h
    have := hexEnc_length ivBytes
    rw [h, hivlen] at this
    simp at this
  have htag_len :
      (hexEnc (tagF (hexDec key) ivBytes (ctrXor ks (hexDec key) ivBytes 0 text))).length = 32 := by
    rw [hexEnc_length, htagLen]
  have hcomb_ne :
      hexEnc (ctrXor ks (hexDec key) ivBytes 0 text) ++
        hexEnc (tagF (hexDec key) ivBytes (ctrXor ks (hexDec key) ivBytes 0 text)) ≠ [] := by
    intro h
    have := congrArg List.length h
    simp [List.length_append, htag_len] at this
  have hlen :
      (hexEnc (ctrXor ks (hexDec key) ivBytes 0 text) ++
        hexEnc (tagF (hexDec key) ivBytes (ctrXor ks (hexDec key) ivBytes 0 text))).length - 32 =
        (hexEnc (ctrXor ks (hexDec key) ivBytes 0 text)).length := by
    simp [List.length_append, htag_len]
  have h1 : hexDec (hexEnc ivBytes) = ivBytes := hexDec_hexEnc _ hivb
  have h2 : hexDec (hexEnc (ctrXor ks (hexDec key) ivBytes 0 text)) =
      ctrXor ks (hexDec key) ivBytes 0 text := hexDec_hexEnc _ hct_lt
  have h3 : hexDec (hexEnc (tagF (hexDec key) ivBytes (ctrXor ks (hexDec key) ivBytes 0 text))) =
      tagF (hexDec key) ivBytes (ctrXor ks (hexDec key) ivBytes 0 text) :=
    hexDec_hexEnc _ (htagB _ _ _)
  have htake := (take_drop_tag (hexEnc (ctrXor ks (hexDec key) ivBytes 0 text))
    (hexEnc (tagF (hexDec key) ivBytes (ctrXor ks (hexDec key) ivBytes 0 text))) htag_len).1
  have hdrop := (take_drop_tag (hexEnc (ctrXor ks (hexDec key) ivBytes 0 text))
    (hexEnc (tagF (hexDec key) ivBytes (ctrXor ks (hexDec key) ivBytes 0 text))) htag_len).2
  simp only [Except.bind]
  unfold decryptShare
  simp [hkb, hsplit, hiv_ne, hcomb_ne, hlen, htake, hdrop, h1, h2, h3,
    ctrXor_ctrXor]

/-- C6: for every plaintext and every valid 32-byte (64-hex-character) key,
decrypting the output of encrypt with the same key and the IV it produced
returns exactly the plaintext, and likewise decryptShare after encryptShare
is the identity; proved for every counter-mode keystream and tag function,
hence in particular for the AES-256-GCM core the source uses. -/
theorem C6_encrypted_share_roundtrip (ks : KeyStream) (tagF : TagFn)
    (text key ivBytes : List Nat)
    (hkey : key.length = 64)
    (htext : ∀ b ∈ text, b < 256)
    (hivlen : ivBytes.length = 16)
    (hivb : ∀ b ∈ ivBytes, b < 256)
    (hks : ∀ k v n, ks k v n < 256)
    (htagLen : ∀ k v c, (tagF k v c).length = 16)
    (htagB : ∀ k v c, ∀ b ∈ tagF k v c, b < 256) :
    ((encrypt ks tagF text key ivBytes).bind
        (fun r => decrypt ks tagF r.encrypted r.iv key) = .ok text) ∧
    ((encryptShare ks tagF text key ivBytes).bind
        (fun s => decryptShare ks tagF s key) = .ok text) :=
  ⟨decrypt_encrypt ks tagF text key ivBytes hkey htext hivb hks htagLen htagB,
    decryptShare_encryptShare ks tagF text key ivBytes hkey htext hivlen hivb hks htagLen htagB⟩

theorem wKs_lt : ∀ k v n, wKs k v n < 256 := fun _ _ _ => by norm_num [wKs]

theorem wTagF_len : ∀ k v c, (wTagF k v c).length = 16 := fun _ _ _ => by simp [wTagF]

theorem wTagF_lt : ∀ k v c, ∀ b ∈ wTagF k v c, b < 256 := by
  intro _ _ _ b hb
  have := List.eq_of_mem_replicate hb
  omega

theorem C6_encrypted_share_roundtrip_witness :
    ((encrypt wKs wTagF wText wKey wIv).bind
        (fun r => decrypt wKs wTagF r.encrypted r.iv wKey) = .ok wText) ∧
    ((encryptShare wKs wTagF wText wKey wIv).bind
        (fun s => decryptShare wKs wTagF s wKey) = .ok wText) :=
  C6_encrypted_share_roundtrip wKs wTagF wText wKey wIv
    (by decide) (by decide) (by decide) (by decide)
    wKs_lt wTagF_len wTagF_lt

/-- C1: first-time issuance must persist the KeyRecord and the encrypted
server share together.  The code violates this on every successful issuance:
after the concrete first-time verify flow succeeds, the persisted user row
has pkpId and pkpPublicKey set while the encryptedServerShare column is
still null, and a subsequent sign call for that very user is rejected at the
server_share stage, so the persisted state contradicts what the sign route
itself requires. -/
theorem C1_issuance_persists_keyrecord_without_share :
    ((verifyHandler fixEnv st0 db0 mint0 req0 0).db.users.find?
        (fun u => u.email == "a@example.com")).map
      (fun u => (u.pkpId, u.pkpPublicKey, u.encryptedServerShare)) =
      some (some "pkp-1", some "0xPUB", none) ∧
    mpcSignHandler parse1 (verifyHandler fixEnv st0 db0 mint0 req0 0).db
      (some { hasBearerScheme := true,
              token := createSessionToken "user-a@example.com" "a@example.com" 0 }) 1
      (some "du") (some "ds") (some "0xsig") =
      { result := .stageFailed "server_share", pkpSignCalled := false } := by
  constructor
  · rfl
  · rfl

/-- C3 counterexample: a well-formed, correctly signed, unexpired token is
accepted by the authenticate middleware even when the session store holds no
row for it, so the persisted session record is not cross-checked on
validate. -/
theorem C3_no_session_store_cross_check : ¬ validateCrossChecksStore := by
  intro hclaim
  have h := hclaim
    { hasBearerScheme := true,
      token := { wellFormed := true, sigOk := true, expiresAt := 1,
                 userId := "u1", email := "a@example.com" } }
    0 [] (by intro s hs; simp at hs)
  simp [authenticate, verifySessionToken] at h

/-- C3 amended: validate fails with Unauthenticated whenever the token is
malformed, its signature does not verify, or it is expired, and a missing
header is likewise rejected; however validation consults only the JWT, not
the persisted session store. -/
theorem C3_validate_rejects_bad_tokens (hdr : AuthHeader) (now : Nat) :
    ((hdr.token.wellFormed = false ∨ hdr.token.sigOk = false ∨
        hdr.token.expiresAt ≤ now) →
      authenticate (some hdr) now = none) ∧
    authenticate none now = none := by
  constructor
  · intro h
    have hcases : (hdr.token.wellFormed && hdr.token.sigOk &&
        decide (now < hdr.token.expiresAt)) = false := by
      rcases h with h | h | h
      · simp [h]
      · simp [h]
      · have : ¬ (now < hdr.token.expiresAt) := by omega
        simp [this]
    simp only [authenticate, verifySessionToken, hcases]
    cases hdr.hasBearerScheme <;> simp
  · rfl

theorem C3_validate_rejects_bad_tokens_witness :
    authenticate (some hdr0) 5 = none :=
  (C3_validate_rejects_bad_tokens hdr0 5).1 (Or.inl rfl)

/-- C4: a sign request with an invalid or expired session token fails with
the 401 of the authentication preHandler, and a valid session whose identity
has no key record fails at the pkp_lookup stage; in both cases the remote
threshold signer is not invoked. -/
theorem C4_sign_auth_and_provisioning_guards (parse : String → Option JsonShare)
    (db : DB) (h : Option AuthHeader) (now : Nat) (uD sD pk : Option String) :
    (authenticate h now = none →
      mpcSignHandler parse db h now uD sD pk =
        { result := .unauthenticated, pkpSignCalled := false }) ∧
    (∀ p, authenticate h now = some p →
      getPKPInfo (findUserById db p.userId) = none →
      mpcSignHandler parse db h now uD sD pk =
        { result := .stageFailed "pkp_lookup", pkpSignCalled := false }) := by
  constructor
  · intro ha
    simp only [mpcSignHandler, ha]
  · intro p ha hp
    simp only [mpcSignHandler, ha, hp]

theorem C4_sign_auth_and_provisioning_guards_witness :
    mpcSignHandler parse1 db0 none 0 (some "du") (some "ds") (some "0xsig") =
      { result := .unauthenticated, pkpSignCalled := false } ∧
    mpcSignHandler parse1 db0 (some hdrNoUser) 0 (some "du") (some "ds") (some "0xsig") =
      { result := .stageFailed "pkp_lookup", pkpSignCalled := false } :=
  ⟨(C4_sign_auth_and_provisioning_guards parse1 db0 none 0
      (some "du") (some "ds") (some "0xsig")).1 rfl,
    (C4_sign_auth_and_provisioning_guards parse1 db0 (some hdrNoUser) 0
      (some "du") (some "ds") (some "0xsig")).2
      { userId := "nouser", email := "x@example.com" } rfl rfl⟩

/-- C5: for a sign request with a valid session, a complete non-mock key
record and a stored encrypted server share that fails to decrypt (the
decryption result of the stored ciphertext is a throw, as a flipped bit in
ciphertext or tag produces), signWithMPC fails with
SERVER_SHARE_DECRYPT_FAILED before the remote signer is reached, the route
surfaces the failure at the mpc_signing stage, and pkpSign is not called. -/
theorem C5_corrupted_server_share_no_remote_call
    (parse : String → Option JsonShare) (db : DB) (h : Option AuthHeader)
    (now : Nat) (p : SessionPayload) (pkpInfo : PKPData) (du : String)
    (pk : Option String)
    (hauth : authenticate h now = some p)
    (hpkp : getPKPInfo (findUserById db p.userId) = some pkpInfo)
    (hmock : strStartsWith pkpInfo.pkpId "mock-" = false)
    (hshare : pkpInfo.encryptedServerShare ≠ "") :
    mpcSignHandler parse db h now (some du) none pk =
      { result := .stageFailed "mpc_signing", pkpSignCalled := false } ∧
    signWithMPC parse (some du) none pk =
      (.error "SERVER_SHARE_DECRYPT_FAILED", false) := by
  have hsw : signWithMPC parse (some du) none pk =
      (.error "SERVER_SHARE_DECRYPT_FAILED", false) := rfl
  refine ⟨?_, hsw⟩
  simp only [mpcSignHandler, hauth, hpkp, hmock, hsw]
  simp [jsTruthy, hshare]

theorem C5_corrupted_server_share_no_remote_call_witness :
    mpcSignHandler parse1 dbProv (some hdrU1) 0 (some "du") none (some "0xsig") =
      { result := .stageFailed "mpc_signing", pkpSignCalled := false } ∧
    signWithMPC parse1 (some "du") none (some "0xsig") =
      (.error "SERVER_SHARE_DECRYPT_FAILED", false) :=
  C5_corrupted_server_share_no_remote_call parse1 dbProv (some hdrU1) 0
    { userId := "u1", email := "a@example.com" }
    { pkpId := "pkp-1", pkpPublicKey := "0xPUB", pkpEthAddress := "0xPUB",
      encryptedServerShare := "ct1" }
    "du" (some "0xsig") rfl rfl (by decide) (by decide)

/-- C2: a verify call for an identity that already has a key record returns
isNewUser false with the stored account address, includes no client share,
invokes no remote mint, and leaves the user table (hence the existing key
record, and the absence of any second encrypted share) unchanged; only a
session row is added. -/
theorem C2_repeat_issuance_idempotent (env : Env) (st st' : StytchState) (db : DB)
    (mint : Option LitMint) (req : VerifyReq) (now : Nat) (user : UserRow) (jwt : String)
    (hfind : findUserByEmail db req.email = some user)
    (hverified : user.emailVerified = true)
    (hprov : jsTruthy user.smartAccountAddress = true)
    (hauth : stytchAuthenticate st req.methodId req.code now = some (jwt, st')) :
    (verifyHandler env st db mint req now).response =
      .okResp (createSessionToken user.id user.email now)
        (user.smartAccountAddress.getD "") false none ∧
    (verifyHandler env st db mint req now).mintCalled = false ∧
    (verifyHandler env st db mint req now).db.users = db.users := by
  simp only [verifyHandler, hauth, hfind, hverified, hprov]
  simp [createDBSession, hprov]

theorem C2_repeat_issuance_idempotent_witness :
    (verifyHandler fixEnv st0 dbProv mint0 req0 0).response =
      .okResp (createSessionToken u1.id u1.email 0)
        (u1.smartAccountAddress.getD "") false none ∧
    (verifyHandler fixEnv st0 dbProv mint0 req0 0).mintCalled = false ∧
    (verifyHandler fixEnv st0 dbProv mint0 req0 0).db.users = dbProv.users :=
  C2_repeat_issuance_idempotent fixEnv st0 stCons dbProv mint0 req0 0 u1
    "stytch-jwt-m1" rfl rfl rfl rfl

theorem find?_methodId_map_mark (l : List StytchOTP) (m : String) (o : StytchOTP)
    (h : l.find? (fun x => x.methodId == m) = some o) :
    (l.map (fun p => if p.methodId == m then { p with consumed := true } else p)).find?
        (fun x => x.methodId == m) = some { o with consumed := true } := by
  induction l with
  | nil => simp at h
  | cons a rest ih =>
    cases hx : (a.methodId == m) with
    | true =>
      rw [List.find?_cons_of_pos (p := fun x => x.methodId == m) (a := a) rest hx] at h
      have h' : a = o := Option.some.inj h
      subst h'
      have hhead : (if (a.methodId == m) = true then
          ({ a with consumed := true } : StytchOTP) else a) =
          { a with consumed := true } := if_pos hx
      rw [List.map_cons, hhead]
      exact List.find?_cons_of_pos (p := fun x => x.methodId == m)
        (a := { a with consumed := true }) _ hx
    | false =>
      have hne : ¬ ((a.methodId == m) = true) := by simp [hx]
      rw [List.find?_cons_of_neg (p := fun x => x.methodId == m) (a := a) rest hne] at h
      have hhead : (if (a.methodId == m) = true then
          ({ a with consumed := true } : StytchOTP) else a) = a := if_neg hne
      rw [List.map_cons, hhead,
        List.find?_cons_of_neg (p := fun x => x.methodId == m) (a := a) _ hne]
      exact ih h

/-- C9: once an assertion (OTP challenge) has been consumed by a successful
verification, any later verify call presenting the same method id and code
is rejected with the invalid-OTP response — even before the expiry window
elapses — leaving the database unchanged and invoking no remote mint; the
provider challenge state is modelled from the spec. -/
theorem C9_consumed_assertion_replay_rejected (env : Env) (st st' : StytchState)
    (db2 : DB) (mint2 : Option LitMint) (req : VerifyReq) (now now2 : Nat) (jwt : String)
    (hfirst : stytchAuthenticate st req.methodId req.code now = some (jwt, st')) :
    verifyHandler env st' db2 mint2 req now2 =
      { response := .invalidOtp, stytch := st', db := db2, mintCalled := false } := by
  have hnone : stytchAuthenticate st' req.methodId req.code now2 = none := by
    unfold stytchAuthenticate at hfirst ⊢
    cases hfind : st.otps.find? (fun o => o.methodId == req.methodId) with
    | none => simp only [hfind] at hfirst; exact absurd hfirst (by simp)
    | some o =>
      simp only [hfind] at hfirst
      by_cases hcond :
          (o.code == req.code && !o.consumed && decide (now < o.expiresAt)) = true
      · rw [if_pos hcond] at hfirst
        have hpair := Option.some.inj hfirst
        have hst' : ({ otps := st.otps.map (fun p =>
            if p.methodId == req.methodId then { p with consumed := true } else p) } :
              StytchState) = st' := congrArg Prod.snd hpair
        rw [← hst']
        simp only [find?_methodId_map_mark st.otps req.methodId o hfind]
        simp
      · rw [if_neg hcond] at hfirst
        simp at hfirst
  simp only [verifyHandler, hnone]

theorem C9_consumed_assertion_replay_rejected_witness :
    verifyHandler fixEnv stCons dbProv mint0 req0 1 =
      { response := .invalidOtp, stytch := stCons, db := dbProv, mintCalled := false } :=
  C9_consumed_assertion_replay_rejected fixEnv st0 stCons dbProv mint0 req0 0 1
    "stytch-jwt-m1" rfl

theorem find?_email_map_some (l : List UserRow) (e : String) (g : UserRow → UserRow)
    (user : UserRow)
    (hg : ∀ u, (g u).email = u.email)
    (h : l.find? (fun u => u.email == e) = some user) :
    (l.map g).find? (fun u => u.email == e) = some (g user) := by
  induction l with
  | nil => simp at h
  | cons a rest ih =>
    cases hx : (a.email == e) with
    | true =>
      rw [List.find?_cons_of_pos (p := fun u => u.email == e) (a := a) rest hx] at h
      have h' : a = user := Option.some.inj h
      subst h'
      have hpos : ((g a).email == e) = true := by rw [hg a]; exact hx
      rw [List.map_cons]
      exact List.find?_cons_of_pos (p := fun u => u.email == e) (a := g a) _ hpos
    | false =>
      have hne : ¬ ((a.email == e) = true) := by simp [hx]
      rw [List.find?_cons_of_neg (p := fun u => u.email == e) (a := a) rest hne] at h
      have hneg : ¬ (((g a).email == e) = true) := by rw [hg a]; exact hne
      rw [List.map_cons,
        List.find?_cons_of_neg (p := fun u => u.email == e) (a := g a) _ hneg]
      exact ih h

/-- C10: on a first-time issuance the account address returned to the caller
and the one stored on the user row are the remote signer public key verbatim,
and the server share plaintext assigns that same public key to its
pkpEthAddress member; the factory-derived counterfactual address plays no
part in this path. -/
theorem C10_smart_account_address_is_public_key (env : Env) (st st' : StytchState)
    (db : DB) (m : LitMint) (req : VerifyReq) (now : Nat) (user : UserRow) (jwt : String)
    (hfind : findUserByEmail db req.email = some user)
    (hverified : user.emailVerified = true)
    (hprov : jsTruthy user.smartAccountAddress = false)
    (hauth : stytchAuthenticate st req.methodId req.code now = some (jwt, st')) :
    ((verifyHandler env st db (some m) req now).response).address = some m.pkpPublicKey ∧
    (findUserByEmail (verifyHandler env st db (some m) req now).db req.email).map
        (fun u => u.smartAccountAddress) = some (some m.pkpPublicKey) ∧
    (generateMPCKeyShares env m).pkpEthAddress = m.pkpPublicKey ∧
    (buildServerSharePayload m.pkpId m.pkpPublicKey).pkpEthAddress = m.pkpPublicKey := by
  refine ⟨?_, ?_, rfl, rfl⟩
  · simp only [verifyHandler, hauth, hfind, hverified]
    simp [VerifyResponse.address, generateMPCKeyShares, hprov]
  · simp only [verifyHandler, hauth, hfind, hverified]
    simp only [Bool.not_true, Bool.false_eq_true, if_false]
    simp only [hprov, Bool.not_false, if_true]
    simp only [createDBSession, updateUserRow, findUserByEmail, List.map_map]
    unfold findUserByEmail at hfind
    rw [find?_email_map_some db.users req.email _ user ?_ hfind]
    · simp [storePKPInfo, generateMPCKeyShares, Function.comp]
    · intro u
      by_cases hid : (u.id == user.id) = true <;>
        simp [Function.comp, hid, storePKPInfo]

theorem C10_smart_account_address_is_public_key_witness :
    ((verifyHandler fixEnv stB dbNew (some litM) reqB 0).response).address =
      some litM.pkpPublicKey ∧
    (findUserByEmail (verifyHandler fixEnv stB dbNew (some litM) reqB 0).db reqB.email).map
        (fun u => u.smartAccountAddress) = some (some litM.pkpPublicKey) ∧
    (generateMPCKeyShares fixEnv litM).pkpEthAddress = litM.pkpPublicKey ∧
    (buildServerSharePayload litM.pkpId litM.pkpPublicKey).pkpEthAddress =
      litM.pkpPublicKey :=
  C10_smart_account_address_is_public_key fixEnv stB stBCons dbNew litM reqB 0 u2
    "stytch-jwt-m2" rfl rfl rfl rfl

theorem runConsecutiveSigns_replicate (parse : String → Option JsonShare) (db : DB)
    (h : Option AuthHeader) (now : Nat) (uD sD pk : Option String) :
    ∀ n, runConsecutiveSigns parse db h now uD sD pk n =
      List.replicate n (mpcSignHandler parse db h now uD sD pk)
  | 0 => rfl
  | n + 1 => by
    simp [runConsecutiveSigns, List.replicate,
      runConsecutiveSigns_replicate parse db h now uD sD pk n]

theorem drop_replicate_succ (x : SignOutcome) :
    ∀ b, (List.replicate (b + 1) x).drop b = [x]
  | 0 => rfl
  | b + 1 => by
    have := drop_replicate_succ x b
    simp only [List.replicate, List.drop_succ_cons]
    exact this

/-- C8 counterexample: the sign route keeps no per-identity counter, so no
bound exists after which consecutive sign requests of the provisioned
fixture identity stop being forwarded to the remote signer: the run of any
length forwards every request. -/
theorem C8_no_bound_on_sign_requests : ¬ signRateLimitClaim := by
  intro hclaim
  obtain ⟨bound, hb⟩ := hclaim
  have hrun := runConsecutiveSigns_replicate parse1 dbProv (some hdrU1) 0
    (some "du") (some "ds") (some "0xsig") (bound + 1)
  have hx : mpcSignHandler parse1 dbProv (some hdrU1) 0
      (some "du") (some "ds") (some "0xsig") =
      { result := .okSig "0xsig", pkpSignCalled := true } := rfl
  have hmem : ({ result := .okSig "0xsig", pkpSignCalled := true } : SignOutcome) ∈
      (runConsecutiveSigns parse1 dbProv (some hdrU1) 0
        (some "du") (some "ds") (some "0xsig") (bound + 1)).drop bound := by
    rw [hrun, hx, drop_replicate_succ]
    simp
  have := hb (bound + 1) _ hmem
  simp at this

/-- C8 amended: the sign route enforces no per-identity rate limit: a run of
any number of consecutive sign requests repeats the very same handling of
the first request, and in the provisioned fixture run every single request
is forwarded to the remote signer and succeeds. -/
theorem C8_every_sign_request_forwarded (parse : String → Option JsonShare) (db : DB)
    (h : Option AuthHeader) (now : Nat) (uD sD pk : Option String) (n : Nat) :
    runConsecutiveSigns parse db h now uD sD pk n =
      List.replicate n (mpcSignHandler parse db h now uD sD pk) ∧
    ∀ out ∈ runConsecutiveSigns parse1 dbProv (some hdrU1) 0
        (some "du") (some "ds") (some "0xsig") n,
      out.pkpSignCalled = true ∧ out.result = .okSig "0xsig" := by
  refine ⟨runConsecutiveSigns_replicate parse db h now uD sD pk n, ?_⟩
  intro out hout
  rw [runConsecutiveSigns_replicate] at hout
  have hx : mpcSignHandler parse1 dbProv (some hdrU1) 0
      (some "du") (some "ds") (some "0xsig") =
      { result := .okSig "0xsig", pkpSignCalled := true } := rfl
  rw [hx] at hout
  have := List.eq_of_mem_replicate hout
  rw [this]
  exact ⟨rfl, rfl⟩

theorem C8_every_sign_request_forwarded_witness :
    runConsecutiveSigns parse1 dbProv (some hdrU1) 0
        (some "du") (some "ds") (some "0xsig") 5 =
      List.replicate 5 (mpcSignHandler parse1 dbProv (some hdrU1) 0
        (some "du") (some "ds") (some "0xsig")) ∧
    ({ result := SignResult.okSig "0xsig", pkpSignCalled := true } :
        SignOutcome).pkpSignCalled = true ∧
    ({ result := SignResult.okSig "0xsig", pkpSignCalled := true } :
        SignOutcome).result = .okSig "0xsig" :=
  ⟨(C8_every_sign_request_forwarded parse1 dbProv (some hdrU1) 0
      (some "du") (some "ds") (some "0xsig") 5).1,
    (C8_every_sign_request_forwarded parse1 dbProv (some hdrU1) 0
      (some "du") (some "ds") (some "0xsig") 5).2
      { result := SignResult.okSig "0xsig", pkpSignCalled := true } (by decide)⟩

theorem filter_length_le_of_imp (l : List (String × Nat)) (p q : (String × Nat) → Bool)
    (h : ∀ x ∈ l, p x = true → q x = true) :
    (l.filter p).length ≤ (l.filter q).length := by
  induction l with
  | nil => simp
  | cons a rest ih =>
    have ih' := ih (fun x hx hp => h x (List.mem_cons_of_mem a hx) hp)
    cases hp : p a with
    | true =>
      have hq := h a (List.mem_cons_self a rest) hp
      simp only [List.filter_cons, hp, hq, if_true]
      simp only [List.length_cons]
      omega
    | false =>
      cases hq : q a with
      | true =>
        simp only [List.filter_cons, hp, hq]
        simp only [Bool.false_eq_true, if_false, if_true, List.length_cons]
        omega
      | false =>
        simp only [List.filter_cons, hp, hq]
        simp only [Bool.false_eq_true, if_false]
        exact ih'

theorem windowCount_append_one (hits : List (String × Nat)) (x : String × Nat)
    (key : String) (T : Nat) :
    windowCount (hits ++ [x]) key T =
      windowCount hits key T +
        (if (x.1 == key && decide (T ≤ x.2) && decide (x.2 < T + OTP_RATE_WINDOW)) = true
          then 1 else 0) := by
  unfold windowCount
  rw [List.filter_append]
  cases hx : (x.1 == key && decide (T ≤ x.2) && decide (x.2 < T + OTP_RATE_WINDOW)) with
  | true => simp [List.filter_cons, hx]
  | false => simp [List.filter_cons, hx]

theorem windowCount_le_liveHits (hits : List (String × Nat)) (key : String)
    (T t : Nat) (_hT : T ≤ t) (ht : t < T + OTP_RATE_WINDOW) :
    windowCount hits key T ≤ liveHits hits key t := by
  unfold windowCount liveHits
  apply filter_length_le_of_imp
  intro p _ hcond
  simp only [Bool.and_eq_true, decide_eq_true_eq] at hcond ⊢
  obtain ⟨⟨hk, h1⟩, h2⟩ := hcond
  exact ⟨hk, by omega⟩

theorem processLogin_hits_eq (hits : List (String × Nat)) (e : String) (t : Nat) :
    (processLogin hits e t).hits = hits ++ [(rateLimitKey e, t)] := by
  unfold processLogin
  by_cases hc : liveHits hits (rateLimitKey e) t < OTP_RATE_MAX <;> simp [hc]

theorem processLogin_accepted_lt (hits : List (String × Nat)) (e : String) (t : Nat)
    (h : (processLogin hits e t).accepted = true) :
    liveHits hits (rateLimitKey e) t < OTP_RATE_MAX := by
  unfold processLogin at h
  by_cases hc : liveHits hits (rateLimitKey e) t < OTP_RATE_MAX
  · exact hc
  · simp [hc] at h

theorem acceptedTimes_window_bound (email : String) (T : Nat) :
    ∀ (reqs hits : List (String × Nat)),
      ((acceptedTimes reqs hits email).filter
          (fun u => decide (T ≤ u) && decide (u < T + OTP_RATE_WINDOW))).length ≤
        OTP_RATE_MAX - windowCount hits (rateLimitKey email) T := by
  intro reqs
  induction reqs with
  | nil => intro hits; simp [acceptedTimes]
  | cons r rest ih =>
    intro hits
    obtain ⟨e, t⟩ := r
    simp only [acceptedTimes]
    by_cases hacc : (e == email && (processLogin hits e t).accepted) = true
    · rw [if_pos hacc]
      obtain ⟨hkey, haccep⟩ := Bool.and_eq_true _ _ |>.mp hacc
      have he : e = email := eq_of_beq hkey
      subst he
      have hlive := processLogin_accepted_lt hits e t haccep
      have htail := ih (processLogin hits e t).hits
      rw [processLogin_hits_eq] at htail
      have hwc := windowCount_append_one hits (rateLimitKey e, t) (rateLimitKey e) T
      cases hw : (decide (T ≤ t) && decide (t < T + OTP_RATE_WINDOW)) with
      | true =>
        obtain ⟨hTd, htd⟩ := Bool.and_eq_true _ _ |>.mp hw
        have hT' : T ≤ t := of_decide_eq_true hTd
        have ht' : t < T + OTP_RATE_WINDOW := of_decide_eq_true htd
        have hwcle := windowCount_le_liveHits hits (rateLimitKey e) T t hT' ht'
        have hcond : (((rateLimitKey e, t).1 == rateLimitKey e) &&
            decide (T ≤ (rateLimitKey e, t).2) &&
            decide ((rateLimitKey e, t).2 < T + OTP_RATE_WINDOW)) = true := by
          simp [hTd, htd]
        rw [hcond, if_pos rfl] at hwc
        rw [hwc] at htail
        rw [processLogin_hits_eq]
        simp only [List.filter_cons, hw, if_true, List.length_cons]
        omega
      | false =>
        rw [hwc] at htail
        rw [processLogin_hits_eq]
        simp only [List.filter_cons, hw, Bool.false_eq_true, if_false]
        have hone : (if (((rateLimitKey e, t).1 == rateLimitKey e) &&
            decide (T ≤ (rateLimitKey e, t).2) &&
            decide ((rateLimitKey e, t).2 < T + OTP_RATE_WINDOW)) = true
            then 1 else 0) ≤ 1 := by
          split <;> omega
        omega
    · rw [if_neg hacc]
      have htail := ih (processLogin hits e t).hits
      rw [processLogin_hits_eq] at htail
      have hwc := windowCount_append_one hits (rateLimitKey e, t) (rateLimitKey email) T
      rw [hwc] at htail
      rw [processLogin_hits_eq]
      have hone : (if (((rateLimitKey e, t).1 == rateLimitKey email) &&
          decide (T ≤ (rateLimitKey e, t).2) &&
          decide ((rateLimitKey e, t).2 < T + OTP_RATE_WINDOW)) = true
          then 1 else 0) ≤ 1 := by
        split <;> omega
      omega

/-- C7: POST /auth/login is rate-limited per email address: over any request
sequence, at most 3 requests for a given email are accepted within any
one-hour window (the registered limiter counts every request against the
per-email key), and a rate-limited request does not reach the handler, so
the external identity provider is not invoked for it. -/
theorem C7_login_rate_limited (reqs : List (String × Nat)) (email : String) (T : Nat) :
    ((acceptedTimes reqs [] email).filter
        (fun u => decide (T ≤ u) && decide (u < T + OTP_RATE_WINDOW))).length ≤
      OTP_RATE_MAX ∧
    ∀ hits e t, (processLogin hits e t).accepted = false →
      (processLogin hits e t).providerCalled = false := by
  constructor
  · have h := acceptedTimes_window_bound email T reqs []
    simpa [windowCount] using h
  · intro hits e t h
    unfold processLogin at h ⊢
    by_cases hc : liveHits hits (rateLimitKey e) t < OTP_RATE_MAX
    · simp [hc] at h
    · simp [hc]

theorem C7_login_rate_limited_witness :
    ((acceptedTimes reqs4 [] "a@example.com").filter
        (fun u => decide (0 ≤ u) && decide (u < 0 + OTP_RATE_WINDOW))).length ≤
      OTP_RATE_MAX ∧
    (processLogin hits3 "a@example.com" 3).providerCalled = false :=
  ⟨(C7_login_rate_limited reqs4 "a@example.com" 0).1,
    (C7_login_rate_limited reqs4 "a@example.com" 0).2 hits3 "a@example.com" 3
      (by decide)⟩

end Onkey
